import Mathlib

/-!
# User / task store of `app.js`

A shallow embedding of the state held by `UserProvider` and `App`
(`users`, `selectedUserIndex`, `theme`) and of the event handlers and render
functions of the components that read and write it.

Modelling conventions.

* A JavaScript string is a Lean `String`.  `String.prototype.trim` removes the
  ECMAScript `WhiteSpace` and `LineTerminator` code points from both ends; all of
  them lie in the Basic Multilingual Plane.
* Arrays are lists.  The handlers of `TaskList` and `TaskForm` copy the outer
  array (`[...users]`), mutate the task array of the selected user object in
  place and store the copy with `setUsers`.  Every user object is created by its
  own object literal in `UserForm.addUser`, so no two entries of `users` share
  an object and the value stored by `setUsers` is the old list with the selected
  entry replaced.
* Reading a property of `undefined` throws a `TypeError`; a handler that throws
  does so before it mutates anything and before it calls `setUsers`.
-/

namespace App

/-- Exceptions a handler or a render function can raise. -/
inductive JsError where
  | typeError
  deriving DecidableEq, Repr

/-- Code points removed by `String.prototype.trim`: ECMAScript `WhiteSpace`
(TAB, VT, FF, ZWNBSP and the Unicode space separators) and `LineTerminator`
(LF, CR, LS, PS). -/
def isTrimChar (c : Char) : Bool :=
  let n := c.toNat
  n == 0x09 || n == 0x0A || n == 0x0B || n == 0x0C || n == 0x0D || n == 0x20 ||
  n == 0xA0 || n == 0x1680 || (0x2000 ≤ n && n ≤ 0x200A) || n == 0x2028 ||
  n == 0x2029 || n == 0x202F || n == 0x205F || n == 0x3000 || n == 0xFEFF

/-- The builtin `String.prototype.trim`, on the list of code points. -/
def trimChars (cs : List Char) : List Char :=
  ((cs.dropWhile isTrimChar).reverse.dropWhile isTrimChar).reverse

/-- The builtin `String.prototype.trim`. -/
def trim (s : String) : String :=
  String.mk (trimChars s.data)

/-- A task object `{ text, completed }`. -/
structure Task where
  text : String
  completed : Bool
  deriving DecidableEq, Repr

/-- A user object `{ name, tasks }`. -/
structure User where
  name : String
  tasks : List Task
  deriving DecidableEq, Repr

/-- The value of `UserContext`: `users` and `selectedUserIndex`
(`null` is `none`). -/
structure Store where
  users : List User
  selectedUserIndex : Option Nat
  deriving DecidableEq, Repr

/-- The initial state of `UserProvider`: `useState([])`, `useState(null)`. -/
def initialStore : Store :=
  { users := [], selectedUserIndex := none }

/-- The initial state of `App`: `useState("light")`. -/
def initialTheme : String := "light"

/-- The handler `Sidebar.toggleTheme`: the value passed to `setTheme`. -/
def toggleTheme (theme : String) : String :=
  if theme = "light" then "dark" else "light"

/-- The expression `users[selectedUserIndex]`: `undefined` (here `none`) when the
index is `null` (the key `"null"` is no element of an array) or out of range. -/
def userAt (users : List User) (selectedUserIndex : Option Nat) : Option User :=
  match selectedUserIndex with
  | none => none
  | some k => users[k]?

/-- The handler `UserForm.addUser`, with `newUser` the content of the text
field: the store after the handler. -/
def addUser (newUser : String) (st : Store) : Store :=
  if trim newUser = "" then st
  else { st with users := st.users ++ [{ name := trim newUser, tasks := [] }] }

/-- The click handler of a `UserList` entry: `setSelectedUserIndex(index)`. -/
def selectUser (index : Nat) (st : Store) : Store :=
  { st with selectedUserIndex := some index }

/-- The click handler of the button of `UserInfo`:
`setSelectedUserIndex(null)`. -/
def deselectUser (st : Store) : Store :=
  { st with selectedUserIndex := none }

/-- The builtin `Array.prototype.splice(start, deleteCount)` for a start index
that is a natural number: the array that is left. -/
def splice {α : Type} (xs : List α) (start deleteCount : Nat) : List α :=
  let actualStart := min start xs.length
  let actualDeleteCount := min deleteCount (xs.length - actualStart)
  xs.take actualStart ++ xs.drop (actualStart + actualDeleteCount)

/-- The handler `TaskForm.addTask`, with `newTask` the content of the text
field.  `updated[selectedUserIndex]` is `undefined` when the index is `null` or
out of range, and reading `.tasks` of it throws. -/
def addTask (newTask : String) (st : Store) : Except JsError Store :=
  if trim newTask = "" then .ok st
  else
    match st.selectedUserIndex with
    | none => .error .typeError
    | some k =>
      match st.users[k]? with
      | none => .error .typeError
      | some user =>
        let task : Task := { text := trim newTask, completed := false }
        .ok { st with users := st.users.set k { user with tasks := user.tasks ++ [task] } }

/-- The handler `TaskList.toggle`. -/
def toggle (index : Nat) (st : Store) : Except JsError Store :=
  match st.selectedUserIndex with
  | none => .error .typeError
  | some k =>
    match st.users[k]? with
    | none => .error .typeError
    | some user =>
      match user.tasks[index]? with
      | none => .error .typeError
      | some task =>
        let flipped : Task := { task with completed := !task.completed }
        .ok { st with users := st.users.set k { user with tasks := user.tasks.set index flipped } }

/-- The handler `TaskList.del`. -/
def del (index : Nat) (st : Store) : Except JsError Store :=
  match st.selectedUserIndex with
  | none => .error .typeError
  | some k =>
    match st.users[k]? with
    | none => .error .typeError
    | some user =>
      .ok { st with users := st.users.set k { user with tasks := splice user.tasks index 1 } }

/-- The handler `TaskList.edit`, with `tasks` the prop of the component and
`promptResult` what `prompt` returns (`null` on cancellation).  The default
text `tasks[index].text` is read before the prompt opens. -/
def edit (tasks : List Task) (index : Nat) (promptResult : Option String) (st : Store) :
    Except JsError Store :=
  match tasks[index]? with
  | none => .error .typeError
  | some _ =>
    match promptResult with
    | none => .ok st
    | some newText =>
      if trim newText = "" then .ok st
      else
        match st.selectedUserIndex with
        | none => .error .typeError
        | some k =>
          match st.users[k]? with
          | none => .error .typeError
          | some user =>
            match user.tasks[index]? with
            | none => .error .typeError
            | some task =>
              let edited : Task := { task with text := trim newText }
              let updatedUser : User := { user with tasks := user.tasks.set index edited }
              .ok { st with users := st.users.set k updatedUser }

/-- The store after a handler has run: a handler that throws has not called
`setUsers` and has mutated nothing, so the store is the one before. -/
def storeAfter (st : Store) : Except JsError Store → Store
  | .ok st' => st'
  | .error _ => st

/-- What `UserInfo` shows: `#userName` and the two numbers of `#userStats`. -/
structure UserInfoView where
  userName : String
  completed : Nat
  total : Nat
  deriving DecidableEq, Repr

/-- The body of `UserInfo` once `user` is read. -/
def userInfoOf (user : User) : UserInfoView :=
  { userName := user.name
    completed := (user.tasks.filter (fun t => t.completed)).length
    total := user.tasks.length }

/-- The component `UserInfo`: `none` when it returns `null`; reading
`user.tasks` throws when `users[selectedUserIndex]` is `undefined`. -/
def UserInfo (st : Store) : Except JsError (Option UserInfoView) :=
  match st.selectedUserIndex with
  | none => .ok none
  | some _ =>
    match userAt st.users st.selectedUserIndex with
    | none => .error .typeError
    | some user => .ok (some (userInfoOf user))

/-- What `Main` shows: `#mainTitle` and, when present, the tasks handed to
`TaskList` inside `#taskSection` (next to `TaskForm`). -/
structure MainView where
  mainTitle : String
  taskSection : Option (List Task)
  deriving DecidableEq, Repr

/-- The body of `Main` once `user` is read. -/
def mainOf : Option User → MainView
  | some user => { mainTitle := "Tareas de " ++ user.name, taskSection := some user.tasks }
  | none => { mainTitle := "Selecciona un usuario", taskSection := none }

/-- The component `Main`. -/
def Main (st : Store) : MainView :=
  mainOf (userAt st.users st.selectedUserIndex)

/-- The input events of the interface. -/
inductive Action where
  | addUser (newUser : String)
  | selectUser (index : Nat)
  | deselectUser
  | addTask (newTask : String)
  | toggleTask (index : Nat)
  | editTask (index : Nat) (promptResult : Option String)
  | deleteTask (index : Nat)
  deriving DecidableEq, Repr

/-- The handler an input event runs, or `none` when the control is not there:
`UserList` has one entry per index of `users`; `Main` shows `TaskForm` and
`TaskList` only when `users[selectedUserIndex]` is an object, and `TaskList` has
one entry per index of its `tasks`.  The button of `UserInfo` exists only while
a user is selected; it is admitted in every state here. -/
def dispatch (st : Store) : Action → Option (Except JsError Store)
  | .addUser newUser => some (.ok (addUser newUser st))
  | .selectUser index =>
    if index < st.users.length then some (.ok (selectUser index st)) else none
  | .deselectUser => some (.ok (deselectUser st))
  | .addTask newTask =>
    match (Main st).taskSection with
    | none => none
    | some _ => some (addTask newTask st)
  | .toggleTask index =>
    match (Main st).taskSection with
    | none => none
    | some tasks => if index < tasks.length then some (toggle index st) else none
  | .editTask index promptResult =>
    match (Main st).taskSection with
    | none => none
    | some tasks =>
      if index < tasks.length then some (edit tasks index promptResult st) else none
  | .deleteTask index =>
    match (Main st).taskSection with
    | none => none
    | some tasks => if index < tasks.length then some (del index st) else none

/-- One input event: the store it leaves, `none` when the control is not
there. -/
def step (st : Store) (a : Action) : Option Store :=
  (dispatch st a).map (storeAfter st)

/-- The stores the interface can be in: the initial one and those an input
event leads to. -/
inductive Reachable : Store → Prop where
  | init : Reachable initialStore
  | next {st st' : Store} (a : Action) : Reachable st → step st a = some st' → Reachable st'

/-- The stores left by a list of input events, from a given store; `none` when
one of the controls is not there. -/
def run (st : Store) : List Action → Option Store
  | [] => some st
  | a :: as => (step st a).bind (fun st' => run st' as)

/-- The number of tasks with `completed = true`. -/
def completedCount : List Task → Nat
  | [] => 0
  | t :: ts => (if t.completed = true then 1 else 0) + completedCount ts

/-- The input events on tasks. -/
def Action.onTask : Action → Bool
  | .addTask _ => true
  | .toggleTask _ => true
  | .editTask _ _ => true
  | .deleteTask _ => true
  | _ => false

/-- The selection is `none` or an index into `users`. -/
def selectionValid (st : Store) : Prop :=
  st.selectedUserIndex = none ∨ ∃ i, st.selectedUserIndex = some i ∧ i < st.users.length

/-! ## Lemmas on the builtins -/

theorem splice_one_eq_eraseIdx {α : Type} (xs : List α) (i : Nat) (h : i < xs.length) :
    splice xs i 1 = xs.eraseIdx i := by
  have h1 : min i xs.length = i := Nat.min_eq_left (Nat.le_of_lt h)
  have h2 : min 1 (xs.length - i) = 1 := Nat.min_eq_left (by omega)
  simp only [splice, h1, h2]
  exact (List.eraseIdx_eq_take_drop_succ xs i).symm

theorem length_splice_one {α : Type} (xs : List α) (i : Nat) (h : i < xs.length) :
    (splice xs i 1).length = xs.length - 1 := by
  rw [splice_one_eq_eraseIdx xs i h, List.length_eraseIdx]
  simp [h]

theorem getElem?_splice_one_lt {α : Type} (xs : List α) (i j : Nat) (h : i < xs.length)
    (hj : j < i) : (splice xs i 1)[j]? = xs[j]? := by
  rw [splice_one_eq_eraseIdx xs i h, List.getElem?_eraseIdx]
  simp [hj]

theorem getElem?_splice_one_ge {α : Type} (xs : List α) (i j : Nat) (h : i < xs.length)
    (hj : i ≤ j) : (splice xs i 1)[j]? = xs[j + 1]? := by
  rw [splice_one_eq_eraseIdx xs i h, List.getElem?_eraseIdx]
  simp [Nat.not_lt.mpr hj]

theorem length_filter_completed (ts : List Task) :
    (ts.filter (fun t => t.completed)).length = completedCount ts := by
  induction ts with
  | nil => rfl
  | cons t ts ih =>
    cases hc : t.completed
    · simp [List.filter, completedCount, hc, ih]
    · simp [List.filter, completedCount, hc, ih]
      omega

/-! ## The task handlers keep the selection and the number of users -/

theorem storeAfter_addTask_frame (s : String) (st : Store) :
    (storeAfter st (addTask s st)).selectedUserIndex = st.selectedUserIndex ∧
    (storeAfter st (addTask s st)).users.length = st.users.length := by
  unfold addTask
  split
  · exact ⟨rfl, rfl⟩
  · split
    · exact ⟨rfl, rfl⟩
    · split
      · exact ⟨rfl, rfl⟩
      · simp [storeAfter]

theorem storeAfter_toggle_frame (i : Nat) (st : Store) :
    (storeAfter st (toggle i st)).selectedUserIndex = st.selectedUserIndex ∧
    (storeAfter st (toggle i st)).users.length = st.users.length := by
  unfold toggle
  split
  · exact ⟨rfl, rfl⟩
  · split
    · exact ⟨rfl, rfl⟩
    · split
      · exact ⟨rfl, rfl⟩
      · simp [storeAfter]

theorem storeAfter_del_frame (i : Nat) (st : Store) :
    (storeAfter st (del i st)).selectedUserIndex = st.selectedUserIndex ∧
    (storeAfter st (del i st)).users.length = st.users.length := by
  unfold del
  split
  · exact ⟨rfl, rfl⟩
  · split
    · exact ⟨rfl, rfl⟩
    · simp [storeAfter]

theorem storeAfter_edit_frame (tasks : List Task) (i : Nat) (r : Option String) (st : Store) :
    (storeAfter st (edit tasks i r st)).selectedUserIndex = st.selectedUserIndex ∧
    (storeAfter st (edit tasks i r st)).users.length = st.users.length := by
  unfold edit
  split
  · exact ⟨rfl, rfl⟩
  · split
    · exact ⟨rfl, rfl⟩
    · split
      · exact ⟨rfl, rfl⟩
      · split
        · exact ⟨rfl, rfl⟩
        · split
          · exact ⟨rfl, rfl⟩
          · split
            · exact ⟨rfl, rfl⟩
            · simp [storeAfter]

theorem step_onTask_frame (st st' : Store) (a : Action) (ha : a.onTask = true)
    (h : step st a = some st') :
    st'.selectedUserIndex = st.selectedUserIndex ∧ st'.users.length = st.users.length := by
  cases a with
  | addUser s => cases ha
  | selectUser i => cases ha
  | deselectUser => cases ha
  | addTask s =>
    simp only [step, dispatch] at h
    split at h
    · cases h
    · simp only [Option.map_some', Option.some.injEq] at h
      subst h
      exact storeAfter_addTask_frame s st
  | toggleTask i =>
    simp only [step, dispatch] at h
    split at h
    · cases h
    · split at h
      · simp only [Option.map_some', Option.some.injEq] at h
        subst h
        exact storeAfter_toggle_frame i st
      · cases h
  | editTask i r =>
    simp only [step, dispatch] at h
    split at h
    · cases h
    · split at h
      · simp only [Option.map_some', Option.some.injEq] at h
        subst h
        exact storeAfter_edit_frame _ i r st
      · cases h
  | deleteTask i =>
    simp only [step, dispatch] at h
    split at h
    · cases h
    · split at h
      · simp only [Option.map_some', Option.some.injEq] at h
        subst h
        exact storeAfter_del_frame i st
      · cases h

theorem step_selectionValid (st st' : Store) (a : Action) (hv : selectionValid st)
    (h : step st a = some st') : selectionValid st' := by
  by_cases ha : a.onTask = true
  · obtain ⟨h1, h2⟩ := step_onTask_frame st st' a ha h
    simpa [selectionValid, h1, h2] using hv
  · cases a with
    | addUser s =>
      simp only [step, dispatch, Option.map_some', Option.some.injEq, storeAfter] at h
      subst h
      unfold selectionValid at hv ⊢
      unfold addUser
      split
      · exact hv
      · rcases hv with hv | ⟨i, hi, hlt⟩
        · exact Or.inl hv
        · refine Or.inr ⟨i, hi, ?_⟩
          simp only [List.length_append, List.length_singleton]
          omega
    | selectUser i =>
      simp only [step, dispatch] at h
      split at h
      · simp only [Option.map_some', Option.some.injEq, storeAfter] at h
        subst h
        exact Or.inr ⟨i, rfl, by assumption⟩
      · cases h
    | deselectUser =>
      simp only [step, dispatch, Option.map_some', Option.some.injEq, storeAfter] at h
      subst h
      exact Or.inl rfl
    | addTask s => exact absurd rfl ha
    | toggleTask i => exact absurd rfl ha
    | editTask i r => exact absurd rfl ha
    | deleteTask i => exact absurd rfl ha

/-! ## What `UserInfo` shows for a selected user -/

theorem userInfo_of_selected (st : Store) (k : Nat) (u : User)
    (hsel : st.selectedUserIndex = some k) (hk : st.users[k]? = some u) :
    UserInfo st = .ok (some ⟨u.name, completedCount u.tasks, u.tasks.length⟩) := by
  simp only [UserInfo, hsel, userAt, hk, userInfoOf, length_filter_completed]

/-! ## The claims -/

/-- C1: `addUser(s)` leaves the selection unchanged; when `trim(s)` is empty the
user sequence is unchanged, otherwise it is the old sequence with exactly one user
`{name: trim(s), tasks: []}` appended at the end, the earlier users unchanged and
in the same order. -/
theorem addUser_spec (st : Store) (s : String) :
    (addUser s st).selectedUserIndex = st.selectedUserIndex ∧
    (trim s = "" → (addUser s st).users = st.users) ∧
    (trim s ≠ "" →
      (addUser s st).users = st.users ++ [{ name := trim s, tasks := [] }] ∧
      (addUser s st).users.length = st.users.length + 1 ∧
      (addUser s st).users[st.users.length]? = some { name := trim s, tasks := [] } ∧
      ∀ j, j < st.users.length → (addUser s st).users[j]? = st.users[j]?) := by
  refine ⟨?_, ?_, ?_⟩
  · unfold addUser
    split <;> rfl
  · intro h
    simp [addUser, h]
  · intro h
    have e : addUser s st =
        { st with users := st.users ++ [{ name := trim s, tasks := [] }] } := by
      simp only [addUser, if_neg h]
    rw [e]
    refine ⟨rfl, by simp, by simp, ?_⟩
    intro j hj
    exact List.getElem?_append_left hj

/-- Witness of C1: a name with blanks around it is added to the initial store. -/
theorem addUser_spec_witness :
    trim " Ana " ≠ "" ∧
    (addUser " Ana " initialStore).selectedUserIndex = none ∧
    (addUser " Ana " initialStore).users = [] ++ [{ name := trim " Ana ", tasks := [] }] :=
  have h := addUser_spec initialStore " Ana "
  ⟨by decide, h.1, (h.2.2 (by decide)).1⟩

/-- C2: with a valid selection `k` and `users[k].tasks = T`, `addTask(s)` with
non-empty `trim(s)` makes `users[k].tasks` equal to `T` followed by
`{text: trim(s), completed: false}` and changes nothing else (the name of
`users[k]`, every other user, the number and order of users, the selection); with
empty `trim(s)` the whole store is unchanged. -/
theorem addTask_spec (st : Store) (k : Nat) (u : User) (s : String)
    (hsel : st.selectedUserIndex = some k) (hk : st.users[k]? = some u) :
    (trim s = "" → addTask s st = .ok st) ∧
    (trim s ≠ "" → ∃ st', addTask s st = .ok st' ∧
      st'.selectedUserIndex = st.selectedUserIndex ∧
      st'.users.length = st.users.length ∧
      st'.users[k]? =
        some { name := u.name, tasks := u.tasks ++ [{ text := trim s, completed := false }] } ∧
      ∀ j, j ≠ k → st'.users[j]? = st.users[j]?) := by
  have hlt : k < st.users.length := (List.getElem?_eq_some.mp hk).1
  refine ⟨?_, ?_⟩
  · intro h
    simp [addTask, h]
  · intro h
    have e : addTask s st = .ok ⟨st.users.set k ⟨u.name, u.tasks ++ [⟨trim s, false⟩]⟩,
        st.selectedUserIndex⟩ := by
      simp only [addTask, if_neg h, hsel, hk]
    refine ⟨_, e, rfl, by simp, by simp [hlt], ?_⟩
    intro j hj
    simp [List.getElem?_set_ne (Ne.symm hj)]

/-- Witness of C2 on a store with one selected user. -/
theorem addTask_spec_witness :
    (trim " Buy milk " = "" →
      addTask " Buy milk "
          { users := [{ name := "Ana", tasks := [] }], selectedUserIndex := some 0 } =
        .ok { users := [{ name := "Ana", tasks := [] }], selectedUserIndex := some 0 }) ∧
    (trim " Buy milk " ≠ "" → ∃ st',
      addTask " Buy milk "
          { users := [{ name := "Ana", tasks := [] }], selectedUserIndex := some 0 } =
        .ok st' ∧
      st'.selectedUserIndex = some 0 ∧
      st'.users.length = 1 ∧
      st'.users[0]? =
        some { name := "Ana", tasks := [] ++ [{ text := trim " Buy milk ", completed := false }] } ∧
      ∀ j, j ≠ 0 → st'.users[j]? = [({ name := "Ana", tasks := [] } : User)][j]?) :=
  addTask_spec { users := [{ name := "Ana", tasks := [] }], selectedUserIndex := some 0 } 0
    { name := "Ana", tasks := [] } " Buy milk " rfl rfl

/-- C3: with a valid selection `k` and a valid task index `i`, `toggleTask(i)`
negates `completed` of task `i` and changes nothing else: the text of task `i`,
every other task of `users[k]`, the length and order of the task sequence, every
other user and the selection. -/
theorem toggle_spec (st : Store) (k i : Nat) (u : User) (t : Task)
    (hsel : st.selectedUserIndex = some k) (hk : st.users[k]? = some u)
    (hi : u.tasks[i]? = some t) :
    ∃ st' u', toggle i st = .ok st' ∧
      st'.selectedUserIndex = st.selectedUserIndex ∧
      st'.users.length = st.users.length ∧
      (∀ j, j ≠ k → st'.users[j]? = st.users[j]?) ∧
      st'.users[k]? = some u' ∧
      u'.name = u.name ∧
      u'.tasks.length = u.tasks.length ∧
      u'.tasks[i]? = some { text := t.text, completed := !t.completed } ∧
      ∀ j, j ≠ i → u'.tasks[j]? = u.tasks[j]? := by
  have hlt : k < st.users.length := (List.getElem?_eq_some.mp hk).1
  have hlti : i < u.tasks.length := (List.getElem?_eq_some.mp hi).1
  have e : toggle i st = .ok ⟨st.users.set k ⟨u.name, u.tasks.set i ⟨t.text, !t.completed⟩⟩,
      st.selectedUserIndex⟩ := by
    simp only [toggle, hsel, hk, hi]
  refine ⟨_, ⟨u.name, u.tasks.set i ⟨t.text, !t.completed⟩⟩, e, rfl, by simp, ?_, by simp [hlt],
    rfl, by simp, by simp [hlti], ?_⟩
  · intro j hj
    simp [List.getElem?_set_ne (Ne.symm hj)]
  · intro j hj
    simp [List.getElem?_set_ne (Ne.symm hj)]

/-- Witness of C3: the second of three tasks is toggled. -/
theorem toggle_spec_witness :
    ∃ st' u',
      toggle 1
          { users := [{ name := "Ana", tasks := [⟨"a", false⟩, ⟨"b", true⟩, ⟨"c", false⟩] }],
            selectedUserIndex := some 0 } = .ok st' ∧
      st'.selectedUserIndex = some 0 ∧
      st'.users.length = 1 ∧
      (∀ j, j ≠ 0 → st'.users[j]? =
        [({ name := "Ana", tasks := [⟨"a", false⟩, ⟨"b", true⟩, ⟨"c", false⟩] } : User)][j]?) ∧
      st'.users[0]? = some u' ∧
      u'.name = "Ana" ∧
      u'.tasks.length = 3 ∧
      u'.tasks[1]? = some { text := "b", completed := !true } ∧
      ∀ j, j ≠ 1 → u'.tasks[j]? = [(⟨"a", false⟩ : Task), ⟨"b", true⟩, ⟨"c", false⟩][j]? :=
  toggle_spec
    { users := [{ name := "Ana", tasks := [⟨"a", false⟩, ⟨"b", true⟩, ⟨"c", false⟩] }],
      selectedUserIndex := some 0 }
    0 1 { name := "Ana", tasks := [⟨"a", false⟩, ⟨"b", true⟩, ⟨"c", false⟩] } ⟨"b", true⟩
    rfl rfl rfl

/-- C4: with a valid selection `k`, `T = users[k].tasks` and `0 <= i < length T`,
`deleteTask(i)` yields a task sequence `T'` of length `length T - 1` with
`T'[j] = T[j]` for `j < i` and `T'[j] = T[j+1]` for `j >= i`; the other users and
the selection are unchanged. -/
theorem del_spec (st : Store) (k i : Nat) (u : User)
    (hsel : st.selectedUserIndex = some k) (hk : st.users[k]? = some u)
    (hi : i < u.tasks.length) :
    ∃ st' u', del i st = .ok st' ∧
      st'.selectedUserIndex = st.selectedUserIndex ∧
      st'.users.length = st.users.length ∧
      (∀ j, j ≠ k → st'.users[j]? = st.users[j]?) ∧
      st'.users[k]? = some u' ∧
      u'.name = u.name ∧
      u'.tasks.length = u.tasks.length - 1 ∧
      (∀ j, j < i → u'.tasks[j]? = u.tasks[j]?) ∧
      ∀ j, i ≤ j → u'.tasks[j]? = u.tasks[j + 1]? := by
  have hlt : k < st.users.length := (List.getElem?_eq_some.mp hk).1
  have e : del i st = .ok ⟨st.users.set k ⟨u.name, splice u.tasks i 1⟩,
      st.selectedUserIndex⟩ := by
    simp only [del, hsel, hk]
  refine ⟨_, ⟨u.name, splice u.tasks i 1⟩, e, rfl, by simp, ?_, by simp [hlt], rfl,
    length_splice_one u.tasks i hi, ?_, ?_⟩
  · intro j hj
    simp [List.getElem?_set_ne (Ne.symm hj)]
  · intro j hj
    exact getElem?_splice_one_lt u.tasks i j hi hj
  · intro j hj
    exact getElem?_splice_one_ge u.tasks i j hi hj

/-- Witness of C4: the second of three tasks is deleted. -/
theorem del_spec_witness :
    ∃ st' u',
      del 1
          { users := [{ name := "Ana", tasks := [⟨"a", false⟩, ⟨"b", true⟩, ⟨"c", false⟩] }],
            selectedUserIndex := some 0 } = .ok st' ∧
      st'.selectedUserIndex = some 0 ∧
      st'.users.length = 1 ∧
      (∀ j, j ≠ 0 → st'.users[j]? =
        [({ name := "Ana", tasks := [⟨"a", false⟩, ⟨"b", true⟩, ⟨"c", false⟩] } : User)][j]?) ∧
      st'.users[0]? = some u' ∧
      u'.name = "Ana" ∧
      u'.tasks.length = 3 - 1 ∧
      (∀ j, j < 1 → u'.tasks[j]? = [(⟨"a", false⟩ : Task), ⟨"b", true⟩, ⟨"c", false⟩][j]?) ∧
      ∀ j, 1 ≤ j → u'.tasks[j]? = [(⟨"a", false⟩ : Task), ⟨"b", true⟩, ⟨"c", false⟩][j + 1]? :=
  del_spec
    { users := [{ name := "Ana", tasks := [⟨"a", false⟩, ⟨"b", true⟩, ⟨"c", false⟩] }],
      selectedUserIndex := some 0 }
    0 1 { name := "Ana", tasks := [⟨"a", false⟩, ⟨"b", true⟩, ⟨"c", false⟩] }
    rfl rfl (by decide)

/-- C5: with a valid selection `k` and a valid task index `i` (so that `Main`
hands `users[k].tasks` to `TaskList`), a prompt result that is a string with
non-empty trim sets the text of task `i` to the trimmed string and changes only
that field (the `completed` flag of task `i`, all other tasks, all other users and
the selection are unchanged); a cancellation, or a string that is empty or
whitespace-only, leaves the whole store unchanged. -/
theorem edit_spec (st : Store) (k i : Nat) (u : User) (t : Task) (r : Option String)
    (hsel : st.selectedUserIndex = some k) (hk : st.users[k]? = some u)
    (hi : u.tasks[i]? = some t) :
    (Main st).taskSection = some u.tasks ∧
    (∀ newText, r = some newText → trim newText ≠ "" →
      ∃ st' u', edit u.tasks i r st = .ok st' ∧
        st'.selectedUserIndex = st.selectedUserIndex ∧
        st'.users.length = st.users.length ∧
        (∀ j, j ≠ k → st'.users[j]? = st.users[j]?) ∧
        st'.users[k]? = some u' ∧
        u'.name = u.name ∧
        u'.tasks.length = u.tasks.length ∧
        u'.tasks[i]? = some { text := trim newText, completed := t.completed } ∧
        ∀ j, j ≠ i → u'.tasks[j]? = u.tasks[j]?) ∧
    ((r = none ∨ ∃ newText, r = some newText ∧ trim newText = "") →
      edit u.tasks i r st = .ok st) := by
  have hlt : k < st.users.length := (List.getElem?_eq_some.mp hk).1
  have hlti : i < u.tasks.length := (List.getElem?_eq_some.mp hi).1
  refine ⟨by simp [Main, userAt, hsel, hk, mainOf], ?_, ?_⟩
  · intro newText hr hne
    subst hr
    have e : edit u.tasks i (some newText) st =
        .ok ⟨st.users.set k ⟨u.name, u.tasks.set i ⟨trim newText, t.completed⟩⟩,
          st.selectedUserIndex⟩ := by
      simp only [edit, hsel, hk, hi, if_neg hne]
    refine ⟨_, ⟨u.name, u.tasks.set i ⟨trim newText, t.completed⟩⟩, e, rfl, by simp, ?_,
      by simp [hlt], rfl, by simp, by simp [hlti], ?_⟩
    · intro j hj
      simp [List.getElem?_set_ne (Ne.symm hj)]
    · intro j hj
      simp [List.getElem?_set_ne (Ne.symm hj)]
  · rintro (hr | ⟨newText, hr, he⟩)
    · subst hr
      simp only [edit, hi]
    · subst hr
      simp only [edit, hi, if_pos he]

/-- Witness of C5: the second of three tasks, with a prompt result that has
blanks around the new text. -/
theorem edit_spec_witness :
    (Main { users := [{ name := "Ana", tasks := [⟨"a", false⟩, ⟨"b", true⟩, ⟨"c", false⟩] }],
            selectedUserIndex := some 0 }).taskSection =
      some [⟨"a", false⟩, ⟨"b", true⟩, ⟨"c", false⟩] ∧
    (∀ newText, some " tea " = some newText → trim newText ≠ "" →
      ∃ st' u',
        edit [⟨"a", false⟩, ⟨"b", true⟩, ⟨"c", false⟩] 1 (some " tea ")
          { users := [{ name := "Ana", tasks := [⟨"a", false⟩, ⟨"b", true⟩, ⟨"c", false⟩] }],
            selectedUserIndex := some 0 } = .ok st' ∧
        st'.selectedUserIndex = some 0 ∧
        st'.users.length = 1 ∧
        (∀ j, j ≠ 0 → st'.users[j]? =
          [({ name := "Ana", tasks := [⟨"a", false⟩, ⟨"b", true⟩, ⟨"c", false⟩] } : User)][j]?) ∧
        st'.users[0]? = some u' ∧
        u'.name = "Ana" ∧
        u'.tasks.length = 3 ∧
        u'.tasks[1]? = some { text := trim newText, completed := true } ∧
        ∀ j, j ≠ 1 → u'.tasks[j]? = [(⟨"a", false⟩ : Task), ⟨"b", true⟩, ⟨"c", false⟩][j]?) ∧
    ((some " tea " = none ∨ ∃ newText, some " tea " = some newText ∧ trim newText = "") →
      edit [⟨"a", false⟩, ⟨"b", true⟩, ⟨"c", false⟩] 1 (some " tea ")
          { users := [{ name := "Ana", tasks := [⟨"a", false⟩, ⟨"b", true⟩, ⟨"c", false⟩] }],
            selectedUserIndex := some 0 } =
        .ok { users := [{ name := "Ana", tasks := [⟨"a", false⟩, ⟨"b", true⟩, ⟨"c", false⟩] }],
              selectedUserIndex := some 0 }) :=
  edit_spec
    { users := [{ name := "Ana", tasks := [⟨"a", false⟩, ⟨"b", true⟩, ⟨"c", false⟩] }],
      selectedUserIndex := some 0 }
    0 1 { name := "Ana", tasks := [⟨"a", false⟩, ⟨"b", true⟩, ⟨"c", false⟩] } ⟨"b", true⟩
    (some " tea ") rfl rfl rfl

/-- C6, as stated, fails: in the initial store (no selection) `addTask` with the
text `Buy milk` raises a `TypeError` instead of completing. -/
theorem addTask_unselected_counterexample :
    initialStore.selectedUserIndex = none ∧
    trim "Buy milk" ≠ "" ∧
    addTask "Buy milk" initialStore = .error .typeError ∧
    ¬ ∃ st', addTask "Buy milk" initialStore = .ok st' := by
  have e : addTask "Buy milk" initialStore = .error .typeError := rfl
  refine ⟨rfl, by decide, e, ?_⟩
  rintro ⟨st', h⟩
  rw [e] at h
  cases h

/-- C6, amended: when the selection is `none`, `Main` shows no task section, so
the add-task form is not there; a call of `addTask(s)` all the same creates no task
and leaves the user sequence and the selection unchanged, completes without an
error when `trim(s)` is empty, and raises a `TypeError` when `trim(s)` is
non-empty. -/
theorem addTask_unselected (st : Store) (s : String) (hsel : st.selectedUserIndex = none) :
    (Main st).taskSection = none ∧
    dispatch st (.addTask s) = none ∧
    storeAfter st (addTask s st) = st ∧
    (trim s = "" → addTask s st = .ok st) ∧
    (trim s ≠ "" → addTask s st = .error .typeError) := by
  have hm : (Main st).taskSection = none := by simp [Main, userAt, hsel, mainOf]
  refine ⟨hm, by simp [dispatch, hm], ?_, ?_, ?_⟩
  · by_cases h : trim s = ""
    · simp [addTask, h, storeAfter]
    · simp [addTask, h, hsel, storeAfter]
  · intro h
    simp [addTask, h]
  · intro h
    simp [addTask, h, hsel]

/-- Witness of the amended C6 in the initial store. -/
theorem addTask_unselected_witness :
    (Main initialStore).taskSection = none ∧
    dispatch initialStore (.addTask "Buy milk") = none ∧
    storeAfter initialStore (addTask "Buy milk" initialStore) = initialStore ∧
    (trim "Buy milk" = "" → addTask "Buy milk" initialStore = .ok initialStore) ∧
    (trim "Buy milk" ≠ "" → addTask "Buy milk" initialStore = .error .typeError) :=
  addTask_unselected initialStore "Buy milk" rfl

/-- C7: in every store reachable from the initial one (`users = []`, no
selection) by input events of the interface (`addUser` with any string,
`selectUser(i)` for an index of the current user list, `deselectUser`, and the
task events with an index of the current task list while a user is shown), the
selection is `none` or an index `i` with `i < length(users)`. -/
theorem reachable_selection_valid (st : Store) (h : Reachable st) :
    st.selectedUserIndex = none ∨ ∃ i, st.selectedUserIndex = some i ∧ i < st.users.length := by
  induction h with
  | init => exact Or.inl rfl
  | next a _ hstep ih => exact step_selectionValid _ _ a ih hstep

/-- Witness of C7: the store after `addUser("Ana")`, `selectUser(0)`. -/
theorem reachable_selection_valid_witness :
    Reachable { users := [{ name := "Ana", tasks := [] }], selectedUserIndex := some 0 } ∧
    ((some 0 : Option Nat) = none ∨
      ∃ i, (some 0 : Option Nat) = some i ∧
        i < [({ name := "Ana", tasks := [] } : User)].length) :=
  have hr : Reachable { users := [{ name := "Ana", tasks := [] }], selectedUserIndex := some 0 } :=
    Reachable.next (.selectUser 0) (Reachable.next (.addUser "Ana") Reachable.init rfl) rfl
  ⟨hr, reachable_selection_valid _ hr⟩

/-- C8: the active user is determined by the selection alone: for every user
sequence and every valid index `i`, after `selectUser(i)` the user read by
`UserInfo` and by `Main` is `users[i]`; and after `deselectUser()`, from any store,
there is no active user: `UserInfo` renders nothing and `Main` shows no task
section. -/
theorem active_user_spec (st : Store) :
    (∀ (i : Nat) (hi : i < st.users.length),
      (selectUser i st).users = st.users ∧
      userAt (selectUser i st).users (selectUser i st).selectedUserIndex = some st.users[i] ∧
      UserInfo (selectUser i st) = .ok (some (userInfoOf st.users[i])) ∧
      Main (selectUser i st) =
        { mainTitle := "Tareas de " ++ st.users[i].name,
          taskSection := some st.users[i].tasks }) ∧
    (deselectUser st).users = st.users ∧
    userAt (deselectUser st).users (deselectUser st).selectedUserIndex = none ∧
    UserInfo (deselectUser st) = .ok none ∧
    Main (deselectUser st) = { mainTitle := "Selecciona un usuario", taskSection := none } := by
  refine ⟨?_, rfl, rfl, rfl, rfl⟩
  intro i hi
  have hk : st.users[i]? = some st.users[i] := List.getElem?_eq_getElem hi
  refine ⟨rfl, ?_, ?_, ?_⟩
  · simp only [selectUser, userAt, hk]
  · simp only [UserInfo, selectUser, userAt, hk]
  · simp only [Main, selectUser, userAt, hk, mainOf]

/-- Witness of C8: the second of two users is selected. -/
theorem active_user_spec_witness :
    UserInfo (selectUser 1
        { users := [⟨"Ana", []⟩, ⟨"Bo", [⟨"tea", true⟩]⟩], selectedUserIndex := none }) =
      .ok (some (userInfoOf ⟨"Bo", [⟨"tea", true⟩]⟩)) ∧
    Main (selectUser 1
        { users := [⟨"Ana", []⟩, ⟨"Bo", [⟨"tea", true⟩]⟩], selectedUserIndex := none }) =
      { mainTitle := "Tareas de " ++ "Bo", taskSection := some [⟨"tea", true⟩] } :=
  have h := (active_user_spec
    { users := [⟨"Ana", []⟩, ⟨"Bo", [⟨"tea", true⟩]⟩], selectedUserIndex := none }).1 1
    (by decide)
  ⟨h.2.2.1, h.2.2.2⟩

/-- C9: for every store with a valid selection, the summary `UserInfo` shows for
the active user is the pair (number of its tasks with `completed = true`, number
of its tasks), computed from the current sequence, so it holds in the store after
any `addTask` / `toggleTask` / `editTask` / `deleteTask`; it is 0 / 0 for an empty
task sequence, and in the scenario `addUser("Ana")`, `selectUser(0)`,
`addTask("Buy milk")`, `toggleTask(0)`, `deleteTask(0)` it is 1 / 1 after the
toggle and 0 / 0 after the delete. -/
theorem summary_spec :
    (∀ (st : Store) (k : Nat) (u : User),
      st.selectedUserIndex = some k → st.users[k]? = some u →
      UserInfo st = .ok (some ⟨u.name, completedCount u.tasks, u.tasks.length⟩) ∧
      (u.tasks = [] → UserInfo st = .ok (some ⟨u.name, 0, 0⟩)) ∧
      ∀ (a : Action) (st' : Store), a.onTask = true → step st a = some st' →
        ∃ u', st'.selectedUserIndex = some k ∧ st'.users[k]? = some u' ∧
          UserInfo st' = .ok (some ⟨u'.name, completedCount u'.tasks, u'.tasks.length⟩)) ∧
    (run initialStore
        [.addUser "Ana", .selectUser 0, .addTask "Buy milk", .toggleTask 0]).map UserInfo =
      some (.ok (some ⟨"Ana", 1, 1⟩)) ∧
    (run initialStore
        [.addUser "Ana", .selectUser 0, .addTask "Buy milk", .toggleTask 0,
          .deleteTask 0]).map UserInfo =
      some (.ok (some ⟨"Ana", 0, 0⟩)) := by
  refine ⟨?_, rfl, rfl⟩
  intro st k u hsel hk
  refine ⟨userInfo_of_selected st k u hsel hk, ?_, ?_⟩
  · intro he
    rw [userInfo_of_selected st k u hsel hk, he]
    rfl
  · intro a st' ha hstep
    obtain ⟨h1, h2⟩ := step_onTask_frame st st' a ha hstep
    have hlt : k < st'.users.length := by
      rw [h2]
      exact (List.getElem?_eq_some.mp hk).1
    have hk' : st'.users[k]? = some st'.users[k] := List.getElem?_eq_getElem hlt
    exact ⟨st'.users[k], h1.trans hsel, hk', userInfo_of_selected st' k _ (h1.trans hsel) hk'⟩

/-- Witness of C9: one completed task out of two. -/
theorem summary_spec_witness :
    UserInfo { users := [⟨"Ana", [⟨"a", true⟩, ⟨"b", false⟩]⟩], selectedUserIndex := some 0 } =
      .ok (some ⟨"Ana", completedCount [⟨"a", true⟩, ⟨"b", false⟩], 2⟩) :=
  (summary_spec.1
    { users := [⟨"Ana", [⟨"a", true⟩, ⟨"b", false⟩]⟩], selectedUserIndex := some 0 } 0
    ⟨"Ana", [⟨"a", true⟩, ⟨"b", false⟩]⟩ rfl rfl).1

/-- C10: the theme toggle is an involution on the two modes: for a mode `m` that
is `light` or `dark`, one toggle yields the other mode (`light` to `dark`, `dark`
to `light`), two toggles yield `m`; the initial mode is `light`. -/
theorem toggleTheme_spec (m : String) (hm : m = "light" ∨ m = "dark") :
    (m = "light" → toggleTheme m = "dark") ∧
    (m = "dark" → toggleTheme m = "light") ∧
    toggleTheme m ≠ m ∧
    toggleTheme (toggleTheme m) = m ∧
    initialTheme = "light" := by
  rcases hm with rfl | rfl
  · refine ⟨fun _ => rfl, fun h => absurd h (by decide), by decide, rfl, rfl⟩
  · refine ⟨fun h => absurd h (by decide), fun _ => rfl, by decide, rfl, rfl⟩

/-- Witness of C10 at the mode `dark`. -/
theorem toggleTheme_spec_witness :
    ("dark" = "light" ∨ "dark" = "dark") ∧
    toggleTheme "dark" = "light" ∧
    toggleTheme (toggleTheme "dark") = "dark" :=
  have h := toggleTheme_spec "dark" (Or.inr rfl)
  ⟨Or.inr rfl, h.2.1 rfl, h.2.2.2.1⟩

end App
